import Mathlib

/-!
Shallow embedding of `scripts/cripts/compute_maplify_score.py`.

Python floats are modelled by exact rationals.  A CSV cell, as produced by
`csv.DictReader`, is either `None` (missing column), the empty string, a
non-empty string that parses as a number, or a non-empty string that does
not parse as a number.
-/

set_option maxRecDepth 8000

namespace Maplify

/-- A value stored in a CSV row as the script sees it: `csv.DictReader`
yields strings, or `None` for a missing column. -/
inductive Cell where
  | missing
  | emptyStr
  | numStr (q : ℚ)
  | junkStr
deriving DecidableEq

/-- Python truthiness of a cell: `None` and the empty string are falsy,
any non-empty string (numeric or not, including the string for 0) is
truthy. -/
def Cell.truthy : Cell → Bool
  | Cell.numStr _ => true
  | Cell.junkStr => true
  | _ => false

/-- A Python value flowing into `float(...)` in the script: either an
actual Python number or a cell taken from the row. -/
inductive PyVal where
  | num (q : ℚ)
  | cell (c : Cell)
deriving DecidableEq

/-- `float(v)`: succeeds on numbers and on numeric strings, raises
(`none`) on `None`, the empty string and non-numeric strings. -/
def tryFloat : PyVal → Option ℚ
  | PyVal.num q => some q
  | PyVal.cell (Cell.numStr q) => some q
  | PyVal.cell _ => none

/-- `row.get(k) or d` for a numeric Python default `d`: the cell itself
when truthy, the default number otherwise. -/
def pyOr (c : Cell) (d : ℚ) : PyVal :=
  if c.truthy then PyVal.cell c else PyVal.num d

/-- Python `max` on two rationals (an executable spelling of `max`). -/
def qmax (a b : ℚ) : ℚ := if a ≤ b then b else a

/-- Python `min` on two rationals (an executable spelling of `min`). -/
def qmin (a b : ℚ) : ℚ := if a ≤ b then a else b

theorem qmax_eq_max (a b : ℚ) : qmax a b = max a b := by
  rcases le_total a b with h | h
  · rw [qmax, if_pos h, max_eq_right h]
  · rcases eq_or_lt_of_le h with rfl | h'
    · simp [qmax]
    · rw [qmax, if_neg (not_le.mpr h'), max_eq_left h]

theorem qmin_eq_min (a b : ℚ) : qmin a b = min a b := by
  rcases le_total a b with h | h
  · rw [qmin, if_pos h, min_eq_left h]
  · rcases eq_or_lt_of_le h with rfl | h'
    · simp [qmin]
    · rw [qmin, if_neg (not_le.mpr h'), min_eq_right h]

/-- `clamp(x, lo=0.0, hi=100.0)` from the script (every call site of the
script uses the default bounds). -/
def clamp (x lo hi : ℚ) : ℚ :=
  qmax lo (qmin hi x)

theorem clamp_eq (x lo hi : ℚ) : clamp x lo hi = max lo (min hi x) := by
  rw [clamp, qmin_eq_min, qmax_eq_max]

/-- `compute_commute_score` (its argument is already a float: `main`
coerces `commute_mins` before the call). -/
def compute_commute_score (commute_mins : ℚ) : ℚ :=
  clamp (100 - qmax 0 (commute_mins - 10) * 2) 0 100

/-- `compute_flood_score`: `float` coercion inside `try`, default 3.0. -/
def compute_flood_score (flood_zone : PyVal) : ℚ :=
  let zone := (tryFloat flood_zone).getD 3
  clamp ((3 - zone) / 3 * 100) 0 100

/-- `compute_pollution_score(aod, aod_min=0.02, aod_max=0.6)`: `float`
coercion inside `try`, default `aod_max`. -/
def compute_pollution_score (aod : PyVal) (aod_min aod_max : ℚ) : ℚ :=
  let a := (tryFloat aod).getD aod_max
  clamp ((1 - (a - aod_min) / (aod_max - aod_min)) * 100) 0 100

/-- `compute_density_score(density, max_density=40000.0)`: `float`
coercion inside `try`, default `max_density`. -/
def compute_density_score (density : PyVal) (max_density : ℚ) : ℚ :=
  let d := (tryFloat density).getD max_density
  clamp (100 - d / max_density * 100) 0 100

/-- `compute_green_score(ndvi, ndvi_min=0.0, ndvi_max=0.6)`: `float`
coercion inside `try`, default `ndvi_min`. -/
def compute_green_score (ndvi : PyVal) (ndvi_min ndvi_max : ℚ) : ℚ :=
  let n := (tryFloat ndvi).getD ndvi_min
  clamp ((n - ndvi_min) / (ndvi_max - ndvi_min) * 100) 0 100

/-- Python 3 `round(q)` to the nearest integer, ties to even. -/
def roundHalfEven (q : ℚ) : ℤ :=
  let f := Rat.floor q
  let r := q - (f : ℚ)
  if r < 1/2 then f
  else if 1/2 < r then f + 1
  else if f % 2 = 0 then f else f + 1

theorem rat_floor_eq_intFloor (q : ℚ) : Rat.floor q = ⌊q⌋ :=
  (Rat.floor_def' q).trans Rat.floor_def.symm

theorem roundHalfEven_eq (q : ℚ) :
    roundHalfEven q =
      if q - (⌊q⌋ : ℚ) < 1/2 then ⌊q⌋
      else if 1/2 < q - (⌊q⌋ : ℚ) then ⌊q⌋ + 1
      else if ⌊q⌋ % 2 = 0 then ⌊q⌋ else ⌊q⌋ + 1 := by
  rw [roundHalfEven, rat_floor_eq_intFloor]

/-- `compute_maplify_score`: the fixed convex combination of the five
sub-scores, then `int(round(s))`. -/
def compute_maplify_score
    (commute_score flood_score pollution_score density_score green_score : ℚ) : ℤ :=
  roundHalfEven (commute_score * 0.25 + flood_score * 0.25 + pollution_score * 0.20
    + density_score * 0.15 + green_score * 0.15)

/-- Python 3 `round(q, 2)`: round to two decimal places, ties to even. -/
def round2 (q : ℚ) : ℚ :=
  (roundHalfEven (q * 100) : ℚ) / 100

theorem roundHalfEven_intCast (n : ℤ) : roundHalfEven (n : ℚ) = n := by
  rw [roundHalfEven_eq, Int.floor_intCast]
  norm_num

theorem roundHalfEven_of_lt_half (n : ℤ) (q : ℚ) (h1 : (n : ℚ) ≤ q)
    (h2 : q < (n : ℚ) + 1/2) : roundHalfEven q = n := by
  have hf : ⌊q⌋ = n := Int.floor_eq_iff.mpr ⟨h1, by linarith⟩
  rw [roundHalfEven_eq, hf, if_pos (by linarith)]

theorem roundHalfEven_of_gt_half (n : ℤ) (q : ℚ) (h1 : (n : ℚ) + 1/2 < q)
    (h2 : q < (n : ℚ) + 1) : roundHalfEven q = n + 1 := by
  have hf : ⌊q⌋ = n := Int.floor_eq_iff.mpr ⟨by linarith, by linarith⟩
  rw [roundHalfEven_eq, hf, if_neg (by linarith), if_pos (by linarith)]

theorem roundHalfEven_half (n : ℤ) :
    roundHalfEven ((n : ℚ) + 1/2) = if n % 2 = 0 then n else n + 1 := by
  have hf : ⌊(n : ℚ) + 1/2⌋ = n := Int.floor_eq_iff.mpr ⟨by linarith, by linarith⟩
  rw [roundHalfEven_eq, hf, if_neg (by linarith), if_neg (by linarith)]

theorem le_roundHalfEven (q : ℚ) : ⌊q⌋ ≤ roundHalfEven q := by
  rw [roundHalfEven_eq]
  split_ifs <;> omega

theorem roundHalfEven_le_floor_add_one (q : ℚ) : roundHalfEven q ≤ ⌊q⌋ + 1 := by
  rw [roundHalfEven_eq]
  split_ifs <;> omega

theorem abs_sub_roundHalfEven (q : ℚ) : |q - (roundHalfEven q : ℚ)| ≤ 1/2 := by
  have h1 := Int.floor_le q
  have h2 := Int.lt_floor_add_one q
  rw [roundHalfEven_eq]
  split_ifs <;> rw [abs_le] <;> constructor <;> push_cast at * <;> linarith

theorem roundHalfEven_mono {x y : ℚ} (h : x ≤ y) : roundHalfEven x ≤ roundHalfEven y := by
  rcases lt_or_le ⌊x⌋ ⌊y⌋ with hf | hf
  · have hx := roundHalfEven_le_floor_add_one x
    have hy := le_roundHalfEven y
    omega
  · have hfe : ⌊x⌋ = ⌊y⌋ := le_antisymm (Int.floor_mono h) hf
    rw [roundHalfEven_eq, roundHalfEven_eq, ← hfe]
    split_ifs <;> first | omega | linarith

theorem roundHalfEven_nonneg {q : ℚ} (h : 0 ≤ q) : 0 ≤ roundHalfEven q :=
  le_trans (Int.floor_nonneg.mpr h) (le_roundHalfEven q)

theorem roundHalfEven_le_intCast {q : ℚ} {n : ℤ} (h : q ≤ (n : ℚ)) :
    roundHalfEven q ≤ n := by
  have h1 : ⌊q⌋ ≤ n := by
    have := Int.floor_mono h
    rwa [Int.floor_intCast] at this
  rcases lt_or_eq_of_le h1 with h2 | h2
  · have := roundHalfEven_le_floor_add_one q
    omega
  · have h3 : (n : ℚ) ≤ q := by
      rw [← h2]
      exact Int.floor_le q
    have h4 : q = (n : ℚ) := le_antisymm h h3
    rw [h4, roundHalfEven_intCast]

/-- A CSV row as a Python dict: an association list from field names to
cells, in insertion order. -/
abbrev Row := List (String × Cell)

/-- `row.get(k)`: the first value stored under `k`, or `None`. -/
def rget : Row → String → Cell
  | [], _ => Cell.missing
  | p :: rest, k => if p.1 = k then p.2 else rget rest k

/-- `k in row`. -/
def rhasKey : Row → String → Bool
  | [], _ => false
  | p :: rest, k => if p.1 = k then true else rhasKey rest k

/-- `row[k] = v` on a Python dict: overwrite in place when the key exists
(its position is preserved), append at the end otherwise. -/
def rset (row : Row) (k : String) (v : Cell) : Row :=
  if rhasKey row k then row.map (fun p => if p.1 = k then (k, v) else p)
  else row ++ [(k, v)]

theorem rget_map_self (row : Row) (k : String) (v : Cell) (h : rhasKey row k = true) :
    rget (row.map fun p => if p.1 = k then (k, v) else p) k = v := by
  induction row with
  | nil => simp [rhasKey] at h
  | cons p rest ih =>
    rw [rhasKey] at h
    by_cases hp : p.1 = k
    · simp only [List.map_cons, if_pos hp]
      rw [rget, if_pos rfl]
    · rw [if_neg hp] at h
      simp only [List.map_cons, if_neg hp]
      rw [rget, if_neg hp]
      exact ih h

theorem rget_append_single (row : Row) (k : String) (v : Cell) (h : rhasKey row k = false) :
    rget (row ++ [(k, v)]) k = v := by
  induction row with
  | nil =>
    simp [rget]
  | cons p rest ih =>
    rw [rhasKey] at h
    by_cases hp : p.1 = k
    · rw [if_pos hp] at h
      exact absurd h (by simp)
    · rw [if_neg hp] at h
      rw [List.cons_append, rget, if_neg hp]
      exact ih h

theorem rget_rset_self (row : Row) (k : String) (v : Cell) :
    rget (rset row k v) k = v := by
  rw [rset]
  split_ifs with h
  · exact rget_map_self row k v h
  · exact rget_append_single row k v (by simpa using h)

theorem rget_map_ne (row : Row) (k nk : String) (v : Cell) (h : nk ≠ k) :
    rget (row.map fun p => if p.1 = k then (k, v) else p) nk = rget row nk := by
  induction row with
  | nil => rfl
  | cons p rest ih =>
    by_cases hp : p.1 = k
    · have hpn : ¬ p.1 = nk := by
        rw [hp]
        exact fun hh => h hh.symm
      simp only [List.map_cons, if_pos hp]
      rw [rget, if_neg (fun hh => h hh.symm), rget, if_neg hpn]
      exact ih
    · simp only [List.map_cons, if_neg hp]
      rw [rget, rget]
      by_cases hpn : p.1 = nk
      · rw [if_pos hpn, if_pos hpn]
      · rw [if_neg hpn, if_neg hpn]
        exact ih

theorem rget_append_single_ne (row : Row) (k nk : String) (v : Cell) (h : nk ≠ k) :
    rget (row ++ [(k, v)]) nk = rget row nk := by
  induction row with
  | nil =>
    simp only [List.nil_append, rget]
    rw [if_neg (fun hh => h hh.symm)]
  | cons p rest ih =>
    rw [List.cons_append, rget, rget]
    by_cases hpn : p.1 = nk
    · rw [if_pos hpn, if_pos hpn]
    · rw [if_neg hpn, if_neg hpn]
      exact ih

theorem rget_rset_ne (row : Row) (k nk : String) (v : Cell) (h : nk ≠ k) :
    rget (rset row k v) nk = rget row nk := by
  rw [rset]
  split_ifs with hK
  · exact rget_map_ne row k nk v h
  · exact rget_append_single_ne row k nk v h

theorem rhasKey_map_ne (row : Row) (k nk : String) (v : Cell) (h : nk ≠ k) :
    rhasKey (row.map fun p => if p.1 = k then (k, v) else p) nk = rhasKey row nk := by
  induction row with
  | nil => rfl
  | cons p rest ih =>
    by_cases hp : p.1 = k
    · have hpn : ¬ p.1 = nk := by
        rw [hp]
        exact fun hh => h hh.symm
      simp only [List.map_cons, if_pos hp]
      rw [rhasKey, if_neg (fun hh => h hh.symm), rhasKey, if_neg hpn]
      exact ih
    · simp only [List.map_cons, if_neg hp]
      rw [rhasKey, rhasKey]
      by_cases hpn : p.1 = nk
      · rw [if_pos hpn, if_pos hpn]
      · rw [if_neg hpn, if_neg hpn]
        exact ih

theorem rhasKey_append_single_ne (row : Row) (k nk : String) (v : Cell) (h : nk ≠ k) :
    rhasKey (row ++ [(k, v)]) nk = rhasKey row nk := by
  induction row with
  | nil =>
    simp only [List.nil_append, rhasKey]
    rw [if_neg (fun hh => h hh.symm)]
  | cons p rest ih =>
    rw [List.cons_append, rhasKey, rhasKey]
    by_cases hpn : p.1 = nk
    · rw [if_pos hpn, if_pos hpn]
    · rw [if_neg hpn, if_neg hpn]
      exact ih

theorem rhasKey_rset_ne (row : Row) (k nk : String) (v : Cell) (h : nk ≠ k) :
    rhasKey (rset row k v) nk = rhasKey row nk := by
  rw [rset]
  split_ifs with hK
  · exact rhasKey_map_ne row k nk v h
  · exact rhasKey_append_single_ne row k nk v h

/-- Lines 77-83 of `main`: overwrite the five sub-score fields with their
values rounded to 2 decimal places, and `maplify_score` with the integer
composite of the unrounded values (computed at line 75, before the
rounding). -/
def writeScores (row : Row) (c f p d g : ℚ) : Row :=
  rset (rset (rset (rset (rset (rset row
    "commute_score" (Cell.numStr (round2 c)))
    "flood_score" (Cell.numStr (round2 f)))
    "pollution_score" (Cell.numStr (round2 p)))
    "density_score" (Cell.numStr (round2 d)))
    "green_score" (Cell.numStr (round2 g)))
    "maplify_score" (Cell.numStr ((compute_maplify_score c f p d g : ℤ) : ℚ))

/-- The per-record body of `main` (lines 63-85).  `none` models an
uncaught exception: the bare `float(...)` calls at lines 63 and 69-73
raise on a truthy cell that does not parse as a number.  The raw-field
defaults (lines 64-67) and the sub-score override precedence (lines
69-73) use Python `or`, i.e. truthiness. -/
def enrichRow (row : Row) : Option Row :=
  (tryFloat (pyOr (rget row "commute_mins") 0)).bind fun commute_mins =>
  (tryFloat (pyOr (rget row "commute_score")
    (compute_commute_score commute_mins))).bind fun commute_score =>
  (tryFloat (pyOr (rget row "flood_score")
    (compute_flood_score (pyOr (rget row "flood_zone") 3)))).bind fun flood_score =>
  (tryFloat (pyOr (rget row "pollution_score")
    (compute_pollution_score (pyOr (rget row "aod") 0.6) 0.02 0.6))).bind fun pollution_score =>
  (tryFloat (pyOr (rget row "density_score")
    (compute_density_score (pyOr (rget row "density_per_km2") 40000) 40000))).bind fun density_score =>
  (tryFloat (pyOr (rget row "green_score")
    (compute_green_score (pyOr (rget row "ndvi") 0.0) 0.0 0.6))).bind fun green_score =>
  some (writeScores row commute_score flood_score pollution_score density_score green_score)

/-- The names of the five sub-score fields, in computation order. -/
def scoreKeys : List String :=
  ["commute_score", "flood_score", "pollution_score", "density_score", "green_score"]

/-- The six fields the script writes, read back from a row. -/
def outScores (row : Row) : Cell × Cell × Cell × Cell × Cell × Cell :=
  (rget row "commute_score", rget row "flood_score", rget row "pollution_score",
   rget row "density_score", rget row "green_score", rget row "maplify_score")

/-- `main` at the list level: score every record (an exception anywhere
aborts the whole run), and compute the output CSV header: the keys of the
first output row, falling back to the input header when no rows were
read. -/
def mainRun (fieldnames : List String) (rows : List Row) :
    Option (List Row × List String) :=
  match rows.mapM enrichRow with
  | none => none
  | some rows_out =>
    some (rows_out,
      match rows_out with
      | [] => fieldnames
      | r :: _ => r.map (fun p => p.1))

theorem enrichRow_eq_some_iff (row r2 : Row) :
    enrichRow row = some r2 ↔
      ∃ m c f p d g : ℚ,
        tryFloat (pyOr (rget row "commute_mins") 0) = some m ∧
        tryFloat (pyOr (rget row "commute_score") (compute_commute_score m)) = some c ∧
        tryFloat (pyOr (rget row "flood_score")
          (compute_flood_score (pyOr (rget row "flood_zone") 3))) = some f ∧
        tryFloat (pyOr (rget row "pollution_score")
          (compute_pollution_score (pyOr (rget row "aod") 0.6) 0.02 0.6)) = some p ∧
        tryFloat (pyOr (rget row "density_score")
          (compute_density_score (pyOr (rget row "density_per_km2") 40000) 40000)) = some d ∧
        tryFloat (pyOr (rget row "green_score")
          (compute_green_score (pyOr (rget row "ndvi") 0.0) 0.0 0.6)) = some g ∧
        r2 = writeScores row c f p d g := by
  constructor
  · intro h
    rw [enrichRow] at h
    obtain ⟨m, hm, h⟩ := Option.bind_eq_some.mp h
    obtain ⟨c, hc, h⟩ := Option.bind_eq_some.mp h
    obtain ⟨f, hf, h⟩ := Option.bind_eq_some.mp h
    obtain ⟨p, hp, h⟩ := Option.bind_eq_some.mp h
    obtain ⟨d, hd, h⟩ := Option.bind_eq_some.mp h
    obtain ⟨g, hg, h⟩ := Option.bind_eq_some.mp h
    exact ⟨m, c, f, p, d, g, hm, hc, hf, hp, hd, hg, (Option.some.inj h).symm⟩
  · rintro ⟨m, c, f, p, d, g, hm, hc, hf, hp, hd, hg, rfl⟩
    rw [enrichRow]
    simp only [hm, hc, hf, hp, hd, hg, Option.some_bind]

theorem rget_writeScores_maplify (row : Row) (c f p d g : ℚ) :
    rget (writeScores row c f p d g) "maplify_score" =
      Cell.numStr ((compute_maplify_score c f p d g : ℤ) : ℚ) := by
  rw [writeScores, rget_rset_self]

theorem rget_writeScores_green (row : Row) (c f p d g : ℚ) :
    rget (writeScores row c f p d g) "green_score" = Cell.numStr (round2 g) := by
  rw [writeScores, rget_rset_ne _ _ _ _ (by decide), rget_rset_self]

theorem rget_writeScores_density (row : Row) (c f p d g : ℚ) :
    rget (writeScores row c f p d g) "density_score" = Cell.numStr (round2 d) := by
  rw [writeScores, rget_rset_ne _ _ _ _ (by decide), rget_rset_ne _ _ _ _ (by decide),
    rget_rset_self]

theorem rget_writeScores_pollution (row : Row) (c f p d g : ℚ) :
    rget (writeScores row c f p d g) "pollution_score" = Cell.numStr (round2 p) := by
  rw [writeScores, rget_rset_ne _ _ _ _ (by decide), rget_rset_ne _ _ _ _ (by decide),
    rget_rset_ne _ _ _ _ (by decide), rget_rset_self]

theorem rget_writeScores_flood (row : Row) (c f p d g : ℚ) :
    rget (writeScores row c f p d g) "flood_score" = Cell.numStr (round2 f) := by
  rw [writeScores, rget_rset_ne _ _ _ _ (by decide), rget_rset_ne _ _ _ _ (by decide),
    rget_rset_ne _ _ _ _ (by decide), rget_rset_ne _ _ _ _ (by decide), rget_rset_self]

theorem rget_writeScores_commute (row : Row) (c f p d g : ℚ) :
    rget (writeScores row c f p d g) "commute_score" = Cell.numStr (round2 c) := by
  rw [writeScores, rget_rset_ne _ _ _ _ (by decide), rget_rset_ne _ _ _ _ (by decide),
    rget_rset_ne _ _ _ _ (by decide), rget_rset_ne _ _ _ _ (by decide),
    rget_rset_ne _ _ _ _ (by decide), rget_rset_self]

theorem rget_writeScores_ne (row : Row) (c f p d g : ℚ) (k : String)
    (h1 : k ≠ "commute_score") (h2 : k ≠ "flood_score") (h3 : k ≠ "pollution_score")
    (h4 : k ≠ "density_score") (h5 : k ≠ "green_score") (h6 : k ≠ "maplify_score") :
    rget (writeScores row c f p d g) k = rget row k := by
  rw [writeScores, rget_rset_ne _ _ _ _ h6, rget_rset_ne _ _ _ _ h5,
    rget_rset_ne _ _ _ _ h4, rget_rset_ne _ _ _ _ h3, rget_rset_ne _ _ _ _ h2,
    rget_rset_ne _ _ _ _ h1]

theorem rhasKey_writeScores_ne (row : Row) (c f p d g : ℚ) (k : String)
    (h1 : k ≠ "commute_score") (h2 : k ≠ "flood_score") (h3 : k ≠ "pollution_score")
    (h4 : k ≠ "density_score") (h5 : k ≠ "green_score") (h6 : k ≠ "maplify_score") :
    rhasKey (writeScores row c f p d g) k = rhasKey row k := by
  rw [writeScores, rhasKey_rset_ne _ _ _ _ h6, rhasKey_rset_ne _ _ _ _ h5,
    rhasKey_rset_ne _ _ _ _ h4, rhasKey_rset_ne _ _ _ _ h3, rhasKey_rset_ne _ _ _ _ h2,
    rhasKey_rset_ne _ _ _ _ h1]

theorem clamp_bounds (x : ℚ) : 0 ≤ clamp x 0 100 ∧ clamp x 0 100 ≤ 100 := by
  rw [clamp_eq]
  exact ⟨le_max_left 0 _, max_le (by norm_num) (min_le_left _ _)⟩

theorem roundHalfEven_nearest (q : ℚ) (n : ℤ) :
    |q - (roundHalfEven q : ℚ)| ≤ |q - (n : ℚ)| := by
  by_cases h : n = roundHalfEven q
  · rw [h]
  · have h1 := abs_sub_roundHalfEven q
    have h2 : (1 : ℚ) ≤ |(roundHalfEven q : ℚ) - (n : ℚ)| := by
      have hne : roundHalfEven q - n ≠ 0 := sub_ne_zero.mpr (fun hh => h hh.symm)
      have hint : 1 ≤ |roundHalfEven q - n| := Int.one_le_abs hne
      calc (1 : ℚ) = ((1 : ℤ) : ℚ) := by norm_num
        _ ≤ ((|roundHalfEven q - n| : ℤ) : ℚ) := by exact_mod_cast hint
        _ = |(roundHalfEven q : ℚ) - (n : ℚ)| := by push_cast; rfl
    have h3 : |(roundHalfEven q : ℚ) - (n : ℚ)| ≤
        |(roundHalfEven q : ℚ) - q| + |q - (n : ℚ)| := abs_sub_le _ _ _
    have h4 : |(roundHalfEven q : ℚ) - q| = |q - (roundHalfEven q : ℚ)| := abs_sub_comm _ _
    linarith

/-- C1: every one of the five normalization functions returns a value in
[0, 100], whatever its input: any rational for `compute_commute_score`
(which receives an already-coerced float), and any Python value —
including non-numeric strings, which the four coercing functions absorb
via their `try`/`except` defaults — for the other four, at any parameter
values (the script always passes the documented defaults).  The final
`clamp` forces the bound in every case. -/
theorem subscore_range :
    (∀ m : ℚ, 0 ≤ compute_commute_score m ∧ compute_commute_score m ≤ 100) ∧
    (∀ v : PyVal, 0 ≤ compute_flood_score v ∧ compute_flood_score v ≤ 100) ∧
    (∀ v : PyVal, ∀ a b : ℚ,
      0 ≤ compute_pollution_score v a b ∧ compute_pollution_score v a b ≤ 100) ∧
    (∀ v : PyVal, ∀ mx : ℚ,
      0 ≤ compute_density_score v mx ∧ compute_density_score v mx ≤ 100) ∧
    (∀ v : PyVal, ∀ a b : ℚ,
      0 ≤ compute_green_score v a b ∧ compute_green_score v a b ≤ 100) :=
  ⟨fun _ => clamp_bounds _, fun _ => clamp_bounds _, fun _ _ _ => clamp_bounds _,
   fun _ _ => clamp_bounds _, fun _ _ _ => clamp_bounds _⟩

/-- C2: for sub-scores in [0, 100], `compute_maplify_score` returns the
integer nearest to `commute*0.25 + flood*0.25 + pollution*0.20 +
density*0.15 + green*0.15` (any exact half is resolved to the even
integer), the result lies in [0, 100] (it is an integer by type), and the
all-100 and all-0 corners give 100 and 0. -/
theorem maplify_composite_spec (c f p d g : ℚ)
    (hc0 : 0 ≤ c) (hc1 : c ≤ 100) (hf0 : 0 ≤ f) (hf1 : f ≤ 100)
    (hp0 : 0 ≤ p) (hp1 : p ≤ 100) (hd0 : 0 ≤ d) (hd1 : d ≤ 100)
    (hg0 : 0 ≤ g) (hg1 : g ≤ 100) :
    (∀ n : ℤ,
      |c * 0.25 + f * 0.25 + p * 0.20 + d * 0.15 + g * 0.15 -
          (compute_maplify_score c f p d g : ℚ)| ≤
        |c * 0.25 + f * 0.25 + p * 0.20 + d * 0.15 + g * 0.15 - (n : ℚ)|) ∧
    ((∃ k : ℤ, c * 0.25 + f * 0.25 + p * 0.20 + d * 0.15 + g * 0.15 = (k : ℚ) + 1/2) →
      compute_maplify_score c f p d g % 2 = 0) ∧
    (0 ≤ compute_maplify_score c f p d g ∧ compute_maplify_score c f p d g ≤ 100) ∧
    compute_maplify_score 100 100 100 100 100 = 100 ∧
    compute_maplify_score 0 0 0 0 0 = 0 := by
  refine ⟨fun n => ?_, ?_, ⟨?_, ?_⟩, ?_, ?_⟩
  · exact roundHalfEven_nearest _ n
  · rintro ⟨k, hk⟩
    rw [compute_maplify_score, hk, roundHalfEven_half]
    split_ifs with h <;> omega
  · exact roundHalfEven_nonneg (by linarith)
  · exact roundHalfEven_le_intCast (n := 100) (by push_cast; linarith)
  · rw [compute_maplify_score]
    exact roundHalfEven_of_lt_half 100 _ (by norm_num) (by norm_num)
  · rw [compute_maplify_score]
    exact roundHalfEven_of_lt_half 0 _ (by norm_num) (by norm_num)

theorem maplify_composite_spec_witness :
    0 ≤ compute_maplify_score 50 60 70 80 90 ∧
      compute_maplify_score 50 60 70 80 90 ≤ 100 :=
  (maplify_composite_spec 50 60 70 80 90 (by norm_num) (by norm_num) (by norm_num)
    (by norm_num) (by norm_num) (by norm_num) (by norm_num) (by norm_num)
    (by norm_num) (by norm_num)).2.2.1

/-- C7: `compute_commute_score m` equals `100 - max(0, m-10)*2` clamped to
[0, 100] for every rational `m`; in particular it is 100 at 10, 0 at 60,
50 at 35, and 100 on all of [0, 10]. -/
theorem commute_formula :
    (∀ m : ℚ, compute_commute_score m = min 100 (max 0 (100 - max 0 (m - 10) * 2))) ∧
    compute_commute_score 10 = 100 ∧ compute_commute_score 60 = 0 ∧
    compute_commute_score 35 = 50 ∧
    (∀ m : ℚ, 0 ≤ m → m ≤ 10 → compute_commute_score m = 100) := by
  refine ⟨fun m => ?_, ?_, ?_, ?_, fun m h0 h10 => ?_⟩
  · rw [compute_commute_score, clamp_eq, qmax_eq_max, min_max_distrib_left]
    norm_num
  · norm_num [compute_commute_score, clamp, qmax, qmin]
  · norm_num [compute_commute_score, clamp, qmax, qmin]
  · norm_num [compute_commute_score, clamp, qmax, qmin]
  · have hq : qmax 0 (m - 10) = 0 := by
      rw [qmax_eq_max, max_eq_left (by linarith)]
    rw [compute_commute_score, hq]
    norm_num [clamp, qmax, qmin]

theorem commute_formula_witness : compute_commute_score 7 = 100 :=
  commute_formula.2.2.2.2 7 (by norm_num) (by norm_num)

/-- C8: on an empty input, the run succeeds, the structured output is the
empty list, and the tabular output header falls back to the input's
column names in their original order, with zero data rows. -/
theorem mainRun_empty (fieldnames : List String) :
    mainRun fieldnames [] = some ([], fieldnames) := rfl

/-- C10: `compute_maplify_score` is monotone nondecreasing in each of its
five arguments separately. -/
theorem maplify_monotone :
    (∀ c c' f p d g : ℚ, c ≤ c' →
      compute_maplify_score c f p d g ≤ compute_maplify_score c' f p d g) ∧
    (∀ c f f' p d g : ℚ, f ≤ f' →
      compute_maplify_score c f p d g ≤ compute_maplify_score c f' p d g) ∧
    (∀ c f p p' d g : ℚ, p ≤ p' →
      compute_maplify_score c f p d g ≤ compute_maplify_score c f p' d g) ∧
    (∀ c f p d d' g : ℚ, d ≤ d' →
      compute_maplify_score c f p d g ≤ compute_maplify_score c f p d' g) ∧
    (∀ c f p d g g' : ℚ, g ≤ g' →
      compute_maplify_score c f p d g ≤ compute_maplify_score c f p d g') := by
  refine ⟨fun c c' f p d g h => ?_, fun c f f' p d g h => ?_, fun c f p p' d g h => ?_,
    fun c f p d d' g h => ?_, fun c f p d g g' h => ?_⟩ <;>
    · simp only [compute_maplify_score]
      exact roundHalfEven_mono (by linarith)

theorem maplify_monotone_witness :
    compute_maplify_score 0 20 30 40 50 ≤ compute_maplify_score 90 20 30 40 50 :=
  maplify_monotone.1 0 90 20 30 40 50 (by norm_num)

/-- A cell that the bare `float(row.get(k) or default)` pattern cannot
raise on: it is either falsy (the default is taken) or a numeric
string. -/
def coercible (c : Cell) : Prop :=
  c.truthy = false ∨ ∃ q : ℚ, c = Cell.numStr q

theorem coercible_tryFloat (c : Cell) (dflt : ℚ) (h : coercible c) :
    ∃ q, tryFloat (pyOr c dflt) = some q := by
  rcases h with h | ⟨q, rfl⟩
  · refine ⟨dflt, ?_⟩
    rw [pyOr, if_neg (by simp [h])]
    rfl
  · exact ⟨q, rfl⟩

/-- C3 counterexample: a record whose `commute_mins` is a non-numeric
string is not scored with a default; it hits the bare `float(...)` at
line 63, outside any `try`, so the exception propagates and the whole run
dies. -/
theorem commute_junk_aborts :
    enrichRow [("commute_mins", Cell.junkStr)] = none := rfl

/-- C3 amended: coercion failures are absorbed locally only for the four
raw fields read inside a `try` (`flood_zone`, `aod`, `ndvi`,
`density_per_km2`): whenever `commute_mins` and the five sub-score
override cells are falsy-or-numeric, the record is scored no matter what
the four protected raw cells hold; but a non-numeric `commute_mins`
(and likewise a non-numeric override cell) raises and the record - in
fact the whole run - fails. -/
theorem enrich_error_policy :
    (∀ row : Row,
      coercible (rget row "commute_mins") →
      coercible (rget row "commute_score") →
      coercible (rget row "flood_score") →
      coercible (rget row "pollution_score") →
      coercible (rget row "density_score") →
      coercible (rget row "green_score") →
      ∃ out, enrichRow row = some out) ∧
    (∀ row : Row, rget row "commute_mins" = Cell.junkStr → enrichRow row = none) := by
  constructor
  · intro row hm hc hf hp hd hg
    obtain ⟨m, hm'⟩ := coercible_tryFloat _ 0 hm
    obtain ⟨c, hc'⟩ := coercible_tryFloat _ (compute_commute_score m) hc
    obtain ⟨f, hf'⟩ :=
      coercible_tryFloat _ (compute_flood_score (pyOr (rget row "flood_zone") 3)) hf
    obtain ⟨p, hp'⟩ :=
      coercible_tryFloat _ (compute_pollution_score (pyOr (rget row "aod") 0.6) 0.02 0.6) hp
    obtain ⟨d, hd'⟩ :=
      coercible_tryFloat _
        (compute_density_score (pyOr (rget row "density_per_km2") 40000) 40000) hd
    obtain ⟨g, hg'⟩ :=
      coercible_tryFloat _ (compute_green_score (pyOr (rget row "ndvi") 0.0) 0.0 0.6) hg
    exact ⟨_, (enrichRow_eq_some_iff row _).mpr
      ⟨m, c, f, p, d, g, hm', hc', hf', hp', hd', hg', rfl⟩⟩
  · intro row h
    rw [enrichRow, h]
    rfl

theorem enrich_error_policy_witness :
    ∃ out, enrichRow [("flood_zone", Cell.junkStr)] = some out :=
  enrich_error_policy.1 _ (Or.inl rfl) (Or.inl rfl) (Or.inl rfl) (Or.inl rfl)
    (Or.inl rfl) (Or.inl rfl)

theorem enrichRow_map_outScores_congr (r1 r2 : Row)
    (e0 : rget r1 "commute_mins" = rget r2 "commute_mins")
    (e1 : rget r1 "commute_score" = rget r2 "commute_score")
    (e2 : rget r1 "flood_score" = rget r2 "flood_score")
    (e3 : rget r1 "pollution_score" = rget r2 "pollution_score")
    (e4 : rget r1 "density_score" = rget r2 "density_score")
    (e5 : rget r1 "green_score" = rget r2 "green_score")
    (ef : compute_flood_score (pyOr (rget r1 "flood_zone") 3) =
        compute_flood_score (pyOr (rget r2 "flood_zone") 3))
    (ep : compute_pollution_score (pyOr (rget r1 "aod") 0.6) 0.02 0.6 =
        compute_pollution_score (pyOr (rget r2 "aod") 0.6) 0.02 0.6)
    (ed : compute_density_score (pyOr (rget r1 "density_per_km2") 40000) 40000 =
        compute_density_score (pyOr (rget r2 "density_per_km2") 40000) 40000)
    (eg : compute_green_score (pyOr (rget r1 "ndvi") 0.0) 0.0 0.6 =
        compute_green_score (pyOr (rget r2 "ndvi") 0.0) 0.0 0.6) :
    (enrichRow r1).map outScores = (enrichRow r2).map outScores := by
  have hsc : ∀ c f p d g : ℚ,
      outScores (writeScores r1 c f p d g) = outScores (writeScores r2 c f p d g) := by
    intro c f p d g
    rw [outScores, outScores, rget_writeScores_commute, rget_writeScores_commute,
      rget_writeScores_flood, rget_writeScores_flood, rget_writeScores_pollution,
      rget_writeScores_pollution, rget_writeScores_density, rget_writeScores_density,
      rget_writeScores_green, rget_writeScores_green, rget_writeScores_maplify,
      rget_writeScores_maplify]
  rw [enrichRow, enrichRow, e0, e1, e2, e3, e4, e5, ef, ep, ed, eg]
  simp only [Option.map_bind, Function.comp, Option.map_some', hsc]

/-- C4 counterexample: a non-numeric `commute_mins` does not yield the
same result as the documented default 0: with the default the record is
scored, with the non-numeric string the whole record processing raises
(`none`). -/
theorem commute_junk_differs_from_default :
    ¬ ((enrichRow [("commute_mins", Cell.junkStr)]).map outScores =
       (enrichRow [("commute_mins", Cell.numStr 0)]).map outScores) := by
  intro h
  have h2 : enrichRow [("commute_mins", Cell.numStr 0)] =
      some (writeScores [("commute_mins", Cell.numStr 0)]
        (compute_commute_score 0)
        (compute_flood_score (pyOr Cell.missing 3))
        (compute_pollution_score (pyOr Cell.missing 0.6) 0.02 0.6)
        (compute_density_score (pyOr Cell.missing 40000) 40000)
        (compute_green_score (pyOr Cell.missing 0.0) 0.0 0.6)) :=
    (enrichRow_eq_some_iff _ _).mpr
      ⟨0, compute_commute_score 0, compute_flood_score (pyOr Cell.missing 3),
        compute_pollution_score (pyOr Cell.missing 0.6) 0.02 0.6,
        compute_density_score (pyOr Cell.missing 40000) 40000,
        compute_green_score (pyOr Cell.missing 0.0) 0.0 0.6,
        rfl, rfl, rfl, rfl, rfl, rfl, rfl⟩
  have h1 : enrichRow [("commute_mins", Cell.junkStr)] = none := rfl
  rw [h1, h2] at h
  exact absurd h (by simp)

/-- C4 amended: for the four fields whose coercion sits inside a `try` -
`flood_zone` (default 3), `aod` (default 0.6), `ndvi` (default 0.0),
`density_per_km2` (default 40000) - a non-numeric string produces exactly
the same six output score fields as explicitly supplying the default; for
`commute_mins` a non-numeric string instead aborts the record (bare
`float`, no default is applied). -/
theorem default_substitution :
    (∀ row : Row,
      (enrichRow (rset row "flood_zone" Cell.junkStr)).map outScores =
        (enrichRow (rset row "flood_zone" (Cell.numStr 3))).map outScores) ∧
    (∀ row : Row,
      (enrichRow (rset row "aod" Cell.junkStr)).map outScores =
        (enrichRow (rset row "aod" (Cell.numStr 0.6))).map outScores) ∧
    (∀ row : Row,
      (enrichRow (rset row "ndvi" Cell.junkStr)).map outScores =
        (enrichRow (rset row "ndvi" (Cell.numStr 0.0))).map outScores) ∧
    (∀ row : Row,
      (enrichRow (rset row "density_per_km2" Cell.junkStr)).map outScores =
        (enrichRow (rset row "density_per_km2" (Cell.numStr 40000))).map outScores) ∧
    (∀ row : Row, enrichRow (rset row "commute_mins" Cell.junkStr) = none) := by
  refine ⟨fun row => ?_, fun row => ?_, fun row => ?_, fun row => ?_, fun row => ?_⟩
  · apply enrichRow_map_outScores_congr <;>
      first
        | rw [rget_rset_ne _ _ _ _ (by decide), rget_rset_ne _ _ _ _ (by decide)]
        | (rw [rget_rset_self, rget_rset_self]; rfl)
  · apply enrichRow_map_outScores_congr <;>
      first
        | rw [rget_rset_ne _ _ _ _ (by decide), rget_rset_ne _ _ _ _ (by decide)]
        | (rw [rget_rset_self, rget_rset_self]; rfl)
  · apply enrichRow_map_outScores_congr <;>
      first
        | rw [rget_rset_ne _ _ _ _ (by decide), rget_rset_ne _ _ _ _ (by decide)]
        | (rw [rget_rset_self, rget_rset_self]; rfl)
  · apply enrichRow_map_outScores_congr <;>
      first
        | rw [rget_rset_ne _ _ _ _ (by decide), rget_rset_ne _ _ _ _ (by decide)]
        | (rw [rget_rset_self, rget_rset_self]; rfl)
  · rw [enrichRow, rget_rset_self]
    rfl

theorem round2_eval_int (q : ℚ) (n : ℤ) (h : q * 100 = (n : ℚ)) :
    round2 q = (n : ℚ) / 100 := by
  rw [round2, h, roundHalfEven_intCast]

theorem round2_eval_up (q : ℚ) (n : ℤ) (h1 : (n : ℚ) + 1/2 < q * 100)
    (h2 : q * 100 < (n : ℚ) + 1) : round2 q = ((n + 1 : ℤ) : ℚ) / 100 := by
  rw [round2, roundHalfEven_of_gt_half n _ h1 h2]

theorem round2_idem (q : ℚ) : round2 (round2 q) = round2 q := by
  rw [round2, round2,
    show (roundHalfEven (q * 100) : ℚ) / 100 * 100 = ((roundHalfEven (q * 100) : ℤ) : ℚ)
      from div_mul_cancel₀ _ (by norm_num),
    roundHalfEven_intCast]

/-- C5 counterexample: a record carrying the value 0 under
`commute_score` (read from CSV, so the non-empty string for 0, which is
truthy) is NOT recomputed from the raw `commute_mins` field: the claim
predicts sub-score `compute_commute_score(0) = 100`, but the code keeps
the supplied 0 verbatim. -/
theorem zero_override_not_recomputed :
    ¬ ((enrichRow [("commute_score", Cell.numStr 0)]).map
        (fun r => rget r "commute_score") =
      some (Cell.numStr (round2 (compute_commute_score 0)))) := by
  intro hEq
  have h : enrichRow [("commute_score", Cell.numStr 0)] =
      some (writeScores [("commute_score", Cell.numStr 0)] 0
        (compute_flood_score (pyOr Cell.missing 3))
        (compute_pollution_score (pyOr Cell.missing 0.6) 0.02 0.6)
        (compute_density_score (pyOr Cell.missing 40000) 40000)
        (compute_green_score (pyOr Cell.missing 0.0) 0.0 0.6)) :=
    (enrichRow_eq_some_iff _ _).mpr
      ⟨0, 0, _, _, _, _, rfl, rfl, rfl, rfl, rfl, rfl, rfl⟩
  rw [h, Option.map_some', rget_writeScores_commute] at hEq
  have h0 : round2 (0 : ℚ) = round2 (compute_commute_score 0) :=
    Cell.numStr.inj (Option.some.inj hEq)
  have hc100 : compute_commute_score 0 = 100 := by
    norm_num [compute_commute_score, clamp, qmax, qmin]
  have e0 : round2 (0 : ℚ) = 0 := by
    rw [round2, show (0 : ℚ) * 100 = ((0 : ℤ) : ℚ) by norm_num, roundHalfEven_intCast]
    norm_num
  have e100 : round2 (100 : ℚ) = 100 := by
    rw [round2, show (100 : ℚ) * 100 = ((10000 : ℤ) : ℚ) by norm_num, roundHalfEven_intCast]
    norm_num
  rw [hc100, e0, e100] at h0
  norm_num at h0

/-- C5 amended: sub-score values arrive from the CSV as strings and the
precedence check is string truthiness.  For each of the five sub-score
fields: a non-empty numeric string q is used verbatim (the output field
holds round(q, 2) and the raw computation is skipped) - including the
string for 0, which is truthy and NOT recomputed; only a missing or
empty cell makes the engine recompute the sub-score from the raw field;
and a non-empty non-numeric string under a sub-score name raises, so the
record is not scored at all. -/
theorem override_precedence :
    (∀ row out : Row, enrichRow row = some out →
      (∀ q : ℚ, rget row "commute_score" = Cell.numStr q →
        rget out "commute_score" = Cell.numStr (round2 q)) ∧
      ((rget row "commute_score").truthy = false →
        ∀ m : ℚ, tryFloat (pyOr (rget row "commute_mins") 0) = some m →
          rget out "commute_score" = Cell.numStr (round2 (compute_commute_score m))) ∧
      (∀ q : ℚ, rget row "flood_score" = Cell.numStr q →
        rget out "flood_score" = Cell.numStr (round2 q)) ∧
      ((rget row "flood_score").truthy = false →
        rget out "flood_score" =
          Cell.numStr (round2 (compute_flood_score (pyOr (rget row "flood_zone") 3)))) ∧
      (∀ q : ℚ, rget row "pollution_score" = Cell.numStr q →
        rget out "pollution_score" = Cell.numStr (round2 q)) ∧
      ((rget row "pollution_score").truthy = false →
        rget out "pollution_score" = Cell.numStr
          (round2 (compute_pollution_score (pyOr (rget row "aod") 0.6) 0.02 0.6))) ∧
      (∀ q : ℚ, rget row "density_score" = Cell.numStr q →
        rget out "density_score" = Cell.numStr (round2 q)) ∧
      ((rget row "density_score").truthy = false →
        rget out "density_score" = Cell.numStr
          (round2 (compute_density_score (pyOr (rget row "density_per_km2") 40000) 40000))) ∧
      (∀ q : ℚ, rget row "green_score" = Cell.numStr q →
        rget out "green_score" = Cell.numStr (round2 q)) ∧
      ((rget row "green_score").truthy = false →
        rget out "green_score" = Cell.numStr
          (round2 (compute_green_score (pyOr (rget row "ndvi") 0.0) 0.0 0.6)))) ∧
    (∀ row : Row, rget row "green_score" = Cell.junkStr → enrichRow row = none) := by
  constructor
  · intro row out h
    obtain ⟨m, c, f, p, d, g, hm, hc, hf, hp, hd, hg, rfl⟩ :=
      (enrichRow_eq_some_iff row _).mp h
    refine ⟨?_, ?_, ?_, ?_, ?_, ?_, ?_, ?_, ?_, ?_⟩
    · intro q hq
      rw [hq] at hc
      have hqc : q = c := by simpa [pyOr, Cell.truthy, tryFloat] using hc
      rw [rget_writeScores_commute, ← hqc]
    · intro hfalsy m' hm'
      have hmm : m' = m := by
        rw [hm] at hm'
        exact (Option.some.inj hm').symm
      rw [pyOr, if_neg (by simp [hfalsy])] at hc
      have hcc : compute_commute_score m = c := by simpa [tryFloat] using hc
      rw [rget_writeScores_commute, hmm, ← hcc]
    · intro q hq
      rw [hq] at hf
      have hqc : q = f := by simpa [pyOr, Cell.truthy, tryFloat] using hf
      rw [rget_writeScores_flood, ← hqc]
    · intro hfalsy
      rw [pyOr, if_neg (by simp [hfalsy])] at hf
      have hcc : compute_flood_score (pyOr (rget row "flood_zone") 3) = f := by
        simpa [tryFloat] using hf
      rw [rget_writeScores_flood, ← hcc]
    · intro q hq
      rw [hq] at hp
      have hqc : q = p := by simpa [pyOr, Cell.truthy, tryFloat] using hp
      rw [rget_writeScores_pollution, ← hqc]
    · intro hfalsy
      rw [pyOr, if_neg (by simp [hfalsy])] at hp
      have hcc : compute_pollution_score (pyOr (rget row "aod") 0.6) 0.02 0.6 = p := by
        simpa [tryFloat] using hp
      rw [rget_writeScores_pollution, ← hcc]
    · intro q hq
      rw [hq] at hd
      have hqc : q = d := by simpa [pyOr, Cell.truthy, tryFloat] using hd
      rw [rget_writeScores_density, ← hqc]
    · intro hfalsy
      rw [pyOr, if_neg (by simp [hfalsy])] at hd
      have hcc : compute_density_score (pyOr (rget row "density_per_km2") 40000) 40000 = d := by
        simpa [tryFloat] using hd
      rw [rget_writeScores_density, ← hcc]
    · intro q hq
      rw [hq] at hg
      have hqc : q = g := by simpa [pyOr, Cell.truthy, tryFloat] using hg
      rw [rget_writeScores_green, ← hqc]
    · intro hfalsy
      rw [pyOr, if_neg (by simp [hfalsy])] at hg
      have hcc : compute_green_score (pyOr (rget row "ndvi") 0.0) 0.0 0.6 = g := by
        simpa [tryFloat] using hg
      rw [rget_writeScores_green, ← hcc]
  · intro row hjunk
    cases h : enrichRow row with
    | none => rfl
    | some out =>
      obtain ⟨m, c, f, p, d, g, hm, hc, hf, hp, hd, hg, heq⟩ :=
        (enrichRow_eq_some_iff row _).mp h
      rw [hjunk] at hg
      simp [pyOr, Cell.truthy, tryFloat] at hg

theorem override_precedence_witness :
    ∃ out : Row, enrichRow [("commute_score", Cell.numStr 50)] = some out ∧
      rget out "commute_score" = Cell.numStr (round2 50) := by
  have h : enrichRow [("commute_score", Cell.numStr 50)] =
      some (writeScores [("commute_score", Cell.numStr 50)] 50
        (compute_flood_score (pyOr Cell.missing 3))
        (compute_pollution_score (pyOr Cell.missing 0.6) 0.02 0.6)
        (compute_density_score (pyOr Cell.missing 40000) 40000)
        (compute_green_score (pyOr Cell.missing 0.0) 0.0 0.6)) :=
    (enrichRow_eq_some_iff _ _).mpr
      ⟨0, 50, _, _, _, _, rfl, rfl, rfl, rfl, rfl, rfl, rfl⟩
  exact ⟨_, h, (override_precedence.1 _ _ h).1 50 rfl⟩

/-- C9: the enriched record preserves every other field (value and
presence) unchanged; the five sub-score fields hold 2-decimal roundings
of the sub-scores used, and `maplify_score` holds the integer composite
of those (unrounded) sub-scores. -/
theorem enrich_frame (row out : Row) (h : enrichRow row = some out) :
    (∀ k : String, k ∉ scoreKeys → k ≠ "maplify_score" →
      rget out k = rget row k ∧ rhasKey out k = rhasKey row k) ∧
    (∃ c f p d g : ℚ,
      rget out "commute_score" = Cell.numStr (round2 c) ∧
      rget out "flood_score" = Cell.numStr (round2 f) ∧
      rget out "pollution_score" = Cell.numStr (round2 p) ∧
      rget out "density_score" = Cell.numStr (round2 d) ∧
      rget out "green_score" = Cell.numStr (round2 g) ∧
      rget out "maplify_score" =
        Cell.numStr ((compute_maplify_score c f p d g : ℤ) : ℚ)) := by
  obtain ⟨m, c, f, p, d, g, hm, hc, hf, hp, hd, hg, rfl⟩ :=
    (enrichRow_eq_some_iff row _).mp h
  constructor
  · intro k hk h6
    simp [scoreKeys] at hk
    obtain ⟨k1, k2, k3, k4, k5⟩ := hk
    exact ⟨rget_writeScores_ne _ _ _ _ _ _ _ k1 k2 k3 k4 k5 h6,
      rhasKey_writeScores_ne _ _ _ _ _ _ _ k1 k2 k3 k4 k5 h6⟩
  · exact ⟨c, f, p, d, g, rget_writeScores_commute _ _ _ _ _ _,
      rget_writeScores_flood _ _ _ _ _ _, rget_writeScores_pollution _ _ _ _ _ _,
      rget_writeScores_density _ _ _ _ _ _, rget_writeScores_green _ _ _ _ _ _,
      rget_writeScores_maplify _ _ _ _ _ _⟩

theorem enrich_frame_witness :
    rget (writeScores [("id", Cell.junkStr), ("ndvi", Cell.numStr (3/10))]
        (compute_commute_score 0)
        (compute_flood_score (pyOr Cell.missing 3))
        (compute_pollution_score (pyOr Cell.missing 0.6) 0.02 0.6)
        (compute_density_score (pyOr Cell.missing 40000) 40000)
        (compute_green_score (pyOr (Cell.numStr (3/10)) 0.0) 0.0 0.6)) "id" =
      rget [("id", Cell.junkStr), ("ndvi", Cell.numStr (3/10))] "id" := by
  have h : enrichRow [("id", Cell.junkStr), ("ndvi", Cell.numStr (3/10))] =
      some (writeScores [("id", Cell.junkStr), ("ndvi", Cell.numStr (3/10))]
        (compute_commute_score 0)
        (compute_flood_score (pyOr Cell.missing 3))
        (compute_pollution_score (pyOr Cell.missing 0.6) 0.02 0.6)
        (compute_density_score (pyOr Cell.missing 40000) 40000)
        (compute_green_score (pyOr (Cell.numStr (3/10)) 0.0) 0.0 0.6)) :=
    (enrichRow_eq_some_iff _ _).mpr
      ⟨0, _, _, _, _, _, rfl, rfl, rfl, rfl, rfl, rfl, rfl⟩
  exact ((enrich_frame _ _ h).1 "id" (by simp [scoreKeys]) (by decide)).1

/-- C6 amended: re-running the enrichment on an already-enriched record
always succeeds and leaves the five sub-score fields unchanged (they hold
2-decimal values, whose rounding is idempotent); in particular a stored
sub-score of 0 survives as the non-empty numeric string for 0 and is NOT
recomputed; but the composite is recomputed from the 2-decimal-rounded
stored sub-scores instead of the original unrounded ones, so it can
change. -/
theorem rerun_stable (row r1 : Row) (h : enrichRow row = some r1) :
    ∃ r2 : Row, enrichRow r1 = some r2 ∧
      (∀ k, k ∈ scoreKeys → rget r2 k = rget r1 k) ∧
      (∃ c f p d g : ℚ,
        rget r1 "commute_score" = Cell.numStr c ∧
        rget r1 "flood_score" = Cell.numStr f ∧
        rget r1 "pollution_score" = Cell.numStr p ∧
        rget r1 "density_score" = Cell.numStr d ∧
        rget r1 "green_score" = Cell.numStr g ∧
        rget r2 "maplify_score" =
          Cell.numStr ((compute_maplify_score c f p d g : ℤ) : ℚ)) := by
  obtain ⟨m, c, f, p, d, g, hm, hc, hf, hp, hd, hg, rfl⟩ :=
    (enrichRow_eq_some_iff row _).mp h
  have hm1 : tryFloat (pyOr (rget (writeScores row c f p d g) "commute_mins") 0) = some m := by
    rw [rget_writeScores_ne _ _ _ _ _ _ _ (by decide) (by decide) (by decide) (by decide)
      (by decide) (by decide)]
    exact hm
  have hc1 : tryFloat (pyOr (rget (writeScores row c f p d g) "commute_score")
      (compute_commute_score m)) = some (round2 c) := by
    rw [rget_writeScores_commute]
    rfl
  have hf1 : tryFloat (pyOr (rget (writeScores row c f p d g) "flood_score")
      (compute_flood_score (pyOr (rget (writeScores row c f p d g) "flood_zone") 3))) =
      some (round2 f) := by
    rw [rget_writeScores_flood]
    rfl
  have hp1 : tryFloat (pyOr (rget (writeScores row c f p d g) "pollution_score")
      (compute_pollution_score (pyOr (rget (writeScores row c f p d g) "aod") 0.6)
        0.02 0.6)) = some (round2 p) := by
    rw [rget_writeScores_pollution]
    rfl
  have hd1 : tryFloat (pyOr (rget (writeScores row c f p d g) "density_score")
      (compute_density_score (pyOr (rget (writeScores row c f p d g) "density_per_km2")
        40000) 40000)) = some (round2 d) := by
    rw [rget_writeScores_density]
    rfl
  have hg1 : tryFloat (pyOr (rget (writeScores row c f p d g) "green_score")
      (compute_green_score (pyOr (rget (writeScores row c f p d g) "ndvi") 0.0)
        0.0 0.6)) = some (round2 g) := by
    rw [rget_writeScores_green]
    rfl
  have h2 : enrichRow (writeScores row c f p d g) =
      some (writeScores (writeScores row c f p d g)
        (round2 c) (round2 f) (round2 p) (round2 d) (round2 g)) :=
    (enrichRow_eq_some_iff _ _).mpr
      ⟨m, round2 c, round2 f, round2 p, round2 d, round2 g,
        hm1, hc1, hf1, hp1, hd1, hg1, rfl⟩
  refine ⟨_, h2, ?_, round2 c, round2 f, round2 p, round2 d, round2 g,
    rget_writeScores_commute _ _ _ _ _ _, rget_writeScores_flood _ _ _ _ _ _,
    rget_writeScores_pollution _ _ _ _ _ _, rget_writeScores_density _ _ _ _ _ _,
    rget_writeScores_green _ _ _ _ _ _, rget_writeScores_maplify _ _ _ _ _ _⟩
  intro k hk
  simp [scoreKeys] at hk
  rcases hk with rfl | rfl | rfl | rfl | rfl
  · rw [rget_writeScores_commute, rget_writeScores_commute, round2_idem]
  · rw [rget_writeScores_flood, rget_writeScores_flood, round2_idem]
  · rw [rget_writeScores_pollution, rget_writeScores_pollution, round2_idem]
  · rw [rget_writeScores_density, rget_writeScores_density, round2_idem]
  · rw [rget_writeScores_green, rget_writeScores_green, round2_idem]

theorem rerun_stable_witness :
    ∃ r2, enrichRow (writeScores [] (compute_commute_score 0)
        (compute_flood_score (pyOr Cell.missing 3))
        (compute_pollution_score (pyOr Cell.missing 0.6) 0.02 0.6)
        (compute_density_score (pyOr Cell.missing 40000) 40000)
        (compute_green_score (pyOr Cell.missing 0.0) 0.0 0.6)) = some r2 := by
  obtain ⟨r2, h2, h3, h4⟩ := rerun_stable [] _ ((enrichRow_eq_some_iff _ _).mpr
    ⟨0, _, _, _, _, _, rfl, rfl, rfl, rfl, rfl, rfl, rfl⟩)
  exact ⟨r2, h2⟩

/-- C6 counterexample: a record whose five override sub-scores are all
non-empty, non-zero numeric strings.  The first run keeps them verbatim,
rounds the stored green score from 50.0051 to 50.01 and computes the
composite 31 from the unrounded values; the second run recomputes the
composite from the rounded stored values and gets 32.  So re-running is
not idempotent on the composite, and the claim's only allowed exception
(a zero-valued sub-score being treated as absent) does not occur here. -/
theorem rerun_changes_composite :
    enrichRow [("commute_score", Cell.numStr (9578/100)), ("flood_score", Cell.numStr (3/50)),
        ("pollution_score", Cell.numStr (3/20)), ("density_score", Cell.numStr (3/50)),
        ("green_score", Cell.numStr (500051/10000))] =
      some [("commute_score", Cell.numStr (9578/100)), ("flood_score", Cell.numStr (3/50)),
        ("pollution_score", Cell.numStr (3/20)), ("density_score", Cell.numStr (3/50)),
        ("green_score", Cell.numStr (5001/100)), ("maplify_score", Cell.numStr 31)] ∧
    enrichRow [("commute_score", Cell.numStr (9578/100)), ("flood_score", Cell.numStr (3/50)),
        ("pollution_score", Cell.numStr (3/20)), ("density_score", Cell.numStr (3/50)),
        ("green_score", Cell.numStr (5001/100)), ("maplify_score", Cell.numStr 31)] =
      some [("commute_score", Cell.numStr (9578/100)), ("flood_score", Cell.numStr (3/50)),
        ("pollution_score", Cell.numStr (3/20)), ("density_score", Cell.numStr (3/50)),
        ("green_score", Cell.numStr (5001/100)), ("maplify_score", Cell.numStr 32)] ∧
    (Cell.numStr 31 : Cell) ≠ Cell.numStr 32 := by
  have hr1 : round2 ((9578:ℚ)/100) = 9578/100 := by
    rw [round2_eval_int _ 9578 (by norm_num)]
    norm_num
  have hr2 : round2 ((3:ℚ)/50) = 3/50 := by
    rw [round2_eval_int _ 6 (by norm_num)]
    norm_num
  have hr3 : round2 ((3:ℚ)/20) = 3/20 := by
    rw [round2_eval_int _ 15 (by norm_num)]
    norm_num
  have hr5 : round2 ((500051:ℚ)/10000) = 5001/100 := by
    rw [round2_eval_up _ 5000 (by norm_num) (by norm_num)]
    norm_num
  have hr6 : round2 ((5001:ℚ)/100) = 5001/100 := by
    rw [round2_eval_int _ 5001 (by norm_num)]
    norm_num
  have hm1 : compute_maplify_score (9578/100) (3/50) (3/20) (3/50) (500051/10000) = 31 := by
    rw [compute_maplify_score]
    exact roundHalfEven_of_lt_half 31 _ (by norm_num) (by norm_num)
  have hm2 : compute_maplify_score (9578/100) (3/50) (3/20) (3/50) (5001/100) = 32 := by
    rw [compute_maplify_score]
    exact (roundHalfEven_of_gt_half 31 _ (by norm_num) (by norm_num)).trans (by norm_num)
  refine ⟨?_, ?_, ?_⟩
  · exact (enrichRow_eq_some_iff _ _).mpr
      ⟨0, 9578/100, 3/50, 3/20, 3/50, 500051/10000, rfl, rfl, rfl, rfl, rfl, rfl,
        by simp [writeScores, rset, rhasKey, hr1, hr2, hr3, hr5, hm1]⟩
  · exact (enrichRow_eq_some_iff _ _).mpr
      ⟨0, 9578/100, 3/50, 3/20, 3/50, 5001/100, rfl, rfl, rfl, rfl, rfl, rfl,
        by simp [writeScores, rset, rhasKey, hr1, hr2, hr3, hr6, hm2]⟩
  · intro hh
    exact absurd (Cell.numStr.inj hh) (by norm_num)

end Maplify
